import Mathlib

/-!
# Verification of the libmonado Rust binding

Shallow embedding of `src/lib.rs`, `src/sys.rs` and `src/space.rs` of the
libmonado-rs binding.  Foreign calls are modelled oracle-style: each operation
takes a `World` structure holding the values the foreign side would report,
and returns its result together with an explicit trace of the foreign calls
it issued.
-/

namespace Libmonado

/-! ## Data model (`sys.rs`, `semver::Version`) -/

/-- `semver::Version` restricted to the numeric triple: `get_api_version`
builds it with `Version::new(major, minor, patch)`, so prerelease and build
metadata are always empty. -/
structure Version where
  major : Nat
  minor : Nat
  patch : Nat
deriving DecidableEq, Repr

/-- `MndResult` from `sys.rs`: result codes for operations, zero is success,
negative values are errors. -/
inductive MndResult where
  | Success
  | ErrorInvalidVersion
  | ErrorInvalidValue
  | ErrorConnectingFailed
  | ErrorOperationFailed
  | ErrorRecenteringNotSupported
  | ErrorInvalidProperty
  | ErrorInvalidOperation
deriving DecidableEq, Repr

/-- `MndResult::to_result` from `sys.rs`. -/
def MndResult.toResult : MndResult → Except MndResult Unit
  | .Success => .ok ()
  | e => .error e

/-- The string produced by `format!("{e:?}")` for an `MndResult`
(the derived `Debug` instance prints the variant name). -/
def MndResult.debugStr : MndResult → String
  | .Success => "Success"
  | .ErrorInvalidVersion => "ErrorInvalidVersion"
  | .ErrorInvalidValue => "ErrorInvalidValue"
  | .ErrorConnectingFailed => "ErrorConnectingFailed"
  | .ErrorOperationFailed => "ErrorOperationFailed"
  | .ErrorRecenteringNotSupported => "ErrorRecenteringNotSupported"
  | .ErrorInvalidProperty => "ErrorInvalidProperty"
  | .ErrorInvalidOperation => "ErrorInvalidOperation"

/-- Decidable equality of `Except` results, so concrete operation outcomes
can be checked by `decide`. -/
instance exceptDecEq {ε α : Type} [DecidableEq ε] [DecidableEq α] :
    DecidableEq (Except ε α) := fun a b =>
  match a, b with
  | .error e, .error e' => decidable_of_iff (e = e') (by simp)
  | .ok x, .ok y => decidable_of_iff (x = y) (by simp)
  | .error _, .ok _ => .isFalse (fun h => Except.noConfusion h)
  | .ok _, .error _ => .isFalse (fun h => Except.noConfusion h)

/-- Strict lexicographic order on version triples (semver ordering for
versions without prerelease). -/
def Version.lt (a b : Version) : Bool :=
  a.major < b.major ||
    (a.major == b.major &&
      (a.minor < b.minor || (a.minor == b.minor && a.patch < b.patch)))

/-- `VersionReq::parse("^1.3.0")` from `crate_api_version` in `lib.rs`:
the floor of the caret requirement. -/
def crate_api_version : Version := ⟨1, 3, 0⟩

/-- `VersionReq::matches` for a caret requirement `^floor` with `floor.major ≥ 1`
applied to a version without prerelease: same major, and at least the floor. -/
def caretMatches (floor v : Version) : Bool :=
  v.major == floor.major && ! Version.lt v floor

/-! ## Foreign-call traces -/

/-- Foreign calls issued through the `MonadoApi` function table. -/
inductive FfiCall where
  | apiGetVersion
  | rootCreate
  | getClientState
  | toggleClientIoActive
deriving DecidableEq, Repr

/-! ## `Monado::create` (`lib.rs` lines 213–224) -/

/-- Oracle for one `Container::<MonadoApi>::load` attempt: whether the dynamic
load succeeds, the version triple `mnd_api_get_version` reports, the status
`mnd_root_create` returns and the root pointer value it writes. -/
structure MonadoApiWorld where
  loadOk : Bool
  version : Version
  rootCreateResult : MndResult
  rootPtr : Nat
deriving DecidableEq, Repr

/-- The `Monado` struct.  In Rust it holds the loaded function table (`api`,
pure code with no data) and the opaque root handle; only the handle is data. -/
structure Monado where
  root : Nat
deriving DecidableEq, Repr

/-- `get_api_version(api)` free function (`lib.rs` lines 28–35): issues one
`mnd_api_get_version` call and returns the triple the foreign side reports
now. -/
def get_api_version (current : Version) : Version × List FfiCall :=
  (current, [.apiGetVersion])

/-- `Monado::create` (`lib.rs` lines 213–224): load the library, query the
version, check it against `^1.3.0`, and only then call `mnd_root_create`. -/
def Monado.create (w : MonadoApiWorld) : Except MndResult Monado × List FfiCall :=
  if w.loadOk = false then (.error .ErrorConnectingFailed, [])
  else if caretMatches crate_api_version w.version = false then
    (.error .ErrorInvalidVersion, [.apiGetVersion])
  else
    match w.rootCreateResult with
    | .Success => (.ok ⟨w.rootPtr⟩, [.apiGetVersion, .rootCreate])
    | e => (.error e, [.apiGetVersion, .rootCreate])

/-- `Monado::get_api_version` (`lib.rs` lines 226–228): delegates to the free
`get_api_version` on the stored api table, so it re-queries the foreign side. -/
def Monado.get_api_version (_ : Monado) (current : Version) : Version × List FfiCall :=
  Libmonado.get_api_version current

lemma caretMatches_false_iff (v : Version) :
    caretMatches crate_api_version v = false ↔
      (v.major ≠ 1 ∨ (v.major = 1 ∧ Version.lt v crate_api_version = true)) := by
  obtain ⟨ma, mi, pa⟩ := v
  simp [caretMatches, crate_api_version, Version.lt]
  omega

/-- C1: if the dynamic load succeeds but the reported version triple is outside
the caret range `^1.3.0` (different major than 1, or major 1 below the 1.3.0
floor), `Monado::create` returns `Err(MndResult::ErrorInvalidVersion)` and its
foreign-call trace contains no `mnd_root_create` call. -/
theorem create_invalid_version_no_root (w : MonadoApiWorld)
    (hload : w.loadOk = true)
    (hver : w.version.major ≠ 1 ∨
      (w.version.major = 1 ∧ Version.lt w.version crate_api_version = true)) :
    (Monado.create w).1 = .error .ErrorInvalidVersion ∧
      FfiCall.rootCreate ∉ (Monado.create w).2 := by
  have hm : caretMatches crate_api_version w.version = false :=
    (caretMatches_false_iff w.version).mpr hver
  simp [Monado.create, hload, hm]

/-- Witness for C1 at the concrete world reporting version 1.2.9. -/
theorem create_invalid_version_no_root_witness :
    (Monado.create ⟨true, ⟨1, 2, 9⟩, .Success, 7⟩).1 = .error .ErrorInvalidVersion ∧
      FfiCall.rootCreate ∉ (Monado.create ⟨true, ⟨1, 2, 9⟩, .Success, 7⟩).2 :=
  create_invalid_version_no_root ⟨true, ⟨1, 2, 9⟩, .Success, 7⟩ rfl
    (Or.inr ⟨rfl, by decide⟩)

/-- C2 counterexample: a connection is created while the foreign side reports
1.3.0; when the foreign side later reports 1.4.0, `get_api_version` returns
1.4.0 (not the construction-time triple) and its trace shows one foreign call. -/
theorem get_api_version_not_cached_counterexample :
    (Monado.create ⟨true, ⟨1, 3, 0⟩, .Success, 1⟩).1 = .ok ⟨1⟩ ∧
      (Monado.get_api_version ⟨1⟩ ⟨1, 4, 0⟩).1 ≠ ⟨1, 3, 0⟩ ∧
      (Monado.get_api_version ⟨1⟩ ⟨1, 4, 0⟩).2 ≠ ([] : List FfiCall) := by
  refine ⟨rfl, ?_, ?_⟩ <;> simp [Monado.get_api_version, get_api_version]

/-- C2 amended: `get_api_version()` issues exactly one `mnd_api_get_version`
foreign call each time and returns the triple the foreign side currently
reports; the connection caches no version. -/
theorem get_api_version_requeries (m : Monado) (current : Version) :
    Monado.get_api_version m current = (current, [.apiGetVersion]) := rfl

/-! ## Paths and the runtime resolver (`lib.rs` lines 81–161) -/

/-- A Rust `Path`/`PathBuf`: whether it is absolute, its normal components,
and whether the underlying OS string is valid Unicode (`Path::to_str`
succeeds; Lean strings cannot carry the invalid bytes themselves). -/
structure RPath where
  isAbs : Bool
  comps : List String
  unicodeOk : Bool
deriving DecidableEq, Repr

/-- `Path::components().count()`: the root directory of an absolute path
counts as one component. -/
def RPath.numComponents (p : RPath) : Nat :=
  p.comps.length + (if p.isAbs then 1 else 0)

/-- `PathBuf::join`: an absolute right-hand side replaces the left-hand side. -/
def RPath.join (a b : RPath) : RPath :=
  if b.isAbs then b else ⟨a.isAbs, a.comps ++ b.comps, a.unicodeOk && b.unicodeOk⟩

/-- `PathBuf::pop`: drop the last component. -/
def RPath.pop (p : RPath) : RPath :=
  ⟨p.isAbs, p.comps.dropLast, p.unicodeOk⟩

/-- `Path::to_str` rendering used for the bare-filename loader probe. -/
def RPath.str (p : RPath) : String :=
  (if p.isAbs then "/" else "") ++ String.intercalate "/" p.comps

/-- Events of the resolution protocol: an attempt to read and parse a runtime
descriptor candidate, a `find_system_library` dlopen probe, and the final
delegation to `Monado::create` at a path. -/
inductive ResolveEvent where
  | readCandidate (p : RPath)
  | probeLoader (name : String)
  | createAt (p : RPath)
deriving DecidableEq, Repr

/-- Oracle for the OS facilities `resolve_runtime_library` uses:
`std::fs::canonicalize` (an `Err` carries the formatted `err.kind()` string)
and the platform `find_system_library` dlopen/dlinfo probe (`None` both when
the probe fails and on non-unix platforms). -/
structure ResolveWorld where
  canonicalize : RPath → Except String RPath
  findSystemLibrary : String → Option RPath

/-- `resolve_runtime_library` (`lib.rs` lines 137–161): canonicalize the
descriptor path, drop the file name, join with the vendor library path;
multi-component paths are used as-is, bare filenames are first probed through
the system loader search. -/
def resolve_runtime_library (w : ResolveWorld) (lib runtime_json_path : RPath) :
    Except String RPath × List ResolveEvent :=
  match w.canonicalize runtime_json_path with
  | .error k => (.error ("Failed to canonicalize runtime json path: " ++ k), [])
  | .ok c =>
    let runtime_path := c.pop
    let path := runtime_path.join lib
    if lib.numComponents > 1 then (.ok path, [])
    else if lib.unicodeOk = false then
      (.error "Library name contains invalid Unicode characters", [])
    else
      match w.findSystemLibrary lib.str with
      | some system_path => (.ok system_path, [.probeLoader lib.str])
      | none => (.ok path, [.probeLoader lib.str])

/-- C4: for a vendor library path with more than one component,
`resolve_runtime_library` never issues a loader-search probe, and (when
canonicalization succeeds) returns the canonicalized descriptor directory
joined with that path. -/
theorem resolve_multi_component_join (w : ResolveWorld) (lib rjp : RPath)
    (hmulti : lib.numComponents > 1) :
    (resolve_runtime_library w lib rjp).2 = [] ∧
      ∀ c, w.canonicalize rjp = .ok c →
        (resolve_runtime_library w lib rjp).1 = .ok (c.pop.join lib) := by
  constructor
  · unfold resolve_runtime_library
    match hc : w.canonicalize rjp with
    | .error k => rfl
    | .ok c => simp [hmulti]
  · intro c hc
    unfold resolve_runtime_library
    rw [hc]
    simp [hmulti]

/-- Witness for C4: descriptor `/etc/xdg/openxr/1/active_runtime.json`
canonicalizing to `/usr/share/openxr/1/active_runtime.json`, vendor path
`lib/libmonado.so`. -/
theorem resolve_multi_component_join_witness :
    (1 : Nat) < (RPath.mk false ["lib", "libmonado.so"] true).numComponents ∧
      (resolve_runtime_library
        ⟨fun _ => .ok ⟨true, ["usr", "share", "openxr", "1", "active_runtime.json"], true⟩,
          fun _ => none⟩
        ⟨false, ["lib", "libmonado.so"], true⟩
        ⟨true, ["etc", "xdg", "openxr", "1", "active_runtime.json"], true⟩).2 = [] ∧
      (resolve_runtime_library
        ⟨fun _ => .ok ⟨true, ["usr", "share", "openxr", "1", "active_runtime.json"], true⟩,
          fun _ => none⟩
        ⟨false, ["lib", "libmonado.so"], true⟩
        ⟨true, ["etc", "xdg", "openxr", "1", "active_runtime.json"], true⟩).1 =
        .ok ⟨true, ["usr", "share", "openxr", "1", "lib", "libmonado.so"], true⟩ := by
  have h := resolve_multi_component_join
    ⟨fun _ => .ok ⟨true, ["usr", "share", "openxr", "1", "active_runtime.json"], true⟩,
      fun _ => none⟩
    ⟨false, ["lib", "libmonado.so"], true⟩
    ⟨true, ["etc", "xdg", "openxr", "1", "active_runtime.json"], true⟩
    (by decide)
  exact ⟨by decide, h.1, by rw [h.2 _ rfl]; rfl⟩

/-- C5: for a bare (relative, single-component, valid-Unicode) vendor library
filename, when canonicalization succeeds `resolve_runtime_library` issues
exactly one loader-search probe; if the probe yields a path that path is the
result, otherwise the result is the directory-join fallback. -/
theorem resolve_bare_filename_probe (w : ResolveWorld) (lib rjp c : RPath)
    (habs : lib.isAbs = false) (hone : lib.comps.length = 1)
    (huni : lib.unicodeOk = true)
    (hc : w.canonicalize rjp = .ok c) :
    (resolve_runtime_library w lib rjp).2 = [.probeLoader lib.str] ∧
      (resolve_runtime_library w lib rjp).1 =
        .ok ((w.findSystemLibrary lib.str).getD (c.pop.join lib)) := by
  have hnum : lib.numComponents = 1 := by
    simp [RPath.numComponents, hone, habs]
  unfold resolve_runtime_library
  rw [hc]
  simp only [hnum, huni, Nat.lt_irrefl, if_false, Bool.true_eq_false]
  match hf : w.findSystemLibrary lib.str with
  | some sp => simp [hf]
  | none => simp [hf]

/-- Witness for C5 with a loader probe that resolves `libmonado.so` to
`/usr/lib/libmonado.so`. -/
theorem resolve_bare_filename_probe_witness :
    (resolve_runtime_library
      ⟨fun _ => .ok ⟨true, ["home", "u", "rt", "active_runtime.json"], true⟩,
        fun n => if n = "libmonado.so" then some ⟨true, ["usr", "lib", "libmonado.so"], true⟩
          else none⟩
      ⟨false, ["libmonado.so"], true⟩
      ⟨true, ["home", "u", "active_runtime.json"], true⟩).2 =
      [.probeLoader (RPath.mk false ["libmonado.so"] true).str] ∧
    (resolve_runtime_library
      ⟨fun _ => .ok ⟨true, ["home", "u", "rt", "active_runtime.json"], true⟩,
        fun n => if n = "libmonado.so" then some ⟨true, ["usr", "lib", "libmonado.so"], true⟩
          else none⟩
      ⟨false, ["libmonado.so"], true⟩
      ⟨true, ["home", "u", "active_runtime.json"], true⟩).1 =
      .ok ⟨true, ["usr", "lib", "libmonado.so"], true⟩ := by
  have h := resolve_bare_filename_probe
    ⟨fun _ => .ok ⟨true, ["home", "u", "rt", "active_runtime.json"], true⟩,
      fun n => if n = "libmonado.so" then some ⟨true, ["usr", "lib", "libmonado.so"], true⟩
        else none⟩
    ⟨false, ["libmonado.so"], true⟩
    ⟨true, ["home", "u", "active_runtime.json"], true⟩
    ⟨true, ["home", "u", "rt", "active_runtime.json"], true⟩
    rfl rfl rfl rfl
  exact ⟨h.1, by rw [h.2]; rfl⟩

/-! ## `Monado::auto_connect` (`lib.rs` lines 175–212) -/

/-- What `fs::metadata` reports about a path. -/
inductive FileKind where
  | file
  | dir
  | other
deriving DecidableEq, Repr

/-- The `runtime` object of the active-runtime descriptor (`RuntimeInfo` in
`lib.rs`): `library_path` (deserialized but unused) and the optional
`MND_libmonado_path`. -/
structure RuntimeInfo where
  library_path : RPath
  libmonado_path : Option RPath
deriving DecidableEq, Repr

/-- The parsed descriptor file (`RuntimeJSON` in `lib.rs`). -/
structure RuntimeJSON where
  runtime : RuntimeInfo
deriving DecidableEq, Repr

/-- Environment snapshot for `auto_connect`: the two environment variables,
the XDG config-file search, the filesystem, the JSON parser, the resolver's
OS facilities, and the library world behind each loadable path. -/
structure AutoWorld where
  libmonadoPathVar : Option RPath
  metadata : RPath → Option FileKind
  xrRuntimeJsonVar : Option RPath
  xdgOk : Bool
  configFiles : List RPath
  readToString : RPath → Option String
  parseRuntimeJSON : String → Option RuntimeJSON
  resolve : ResolveWorld
  apiAt : RPath → MonadoApiWorld

/-- `std::fs::read_to_string(&p).ok()` then `serde_json::from_str::<RuntimeJSON>(..).ok()`:
the closure body of the `find_map` in `auto_connect`. -/
def AutoWorld.parseCandidate (w : AutoWorld) (p : RPath) : Option RuntimeJSON :=
  (w.readToString p).bind w.parseRuntimeJSON

/-- The candidate chain examined by the `find_map`: the `XR_RUNTIME_JSON`
override first, then `find_config_files("openxr/1/active_runtime.json")`
reversed (`.rev()`), or nothing when `BaseDirectories::new()` failed. -/
def AutoWorld.candidates (w : AutoWorld) : List RPath :=
  w.xrRuntimeJsonVar.toList ++ (if w.xdgOk then w.configFiles.reverse else [])

/-- The `find_map` over descriptor candidates: the first candidate that reads
and parses wins; the trace records every candidate examined. -/
def findRuntime (w : AutoWorld) : List RPath → Option (RuntimeJSON × RPath) × List ResolveEvent
  | [] => (none, [])
  | p :: rest =>
    match w.parseCandidate p with
    | some j => (some (j, p), [.readCandidate p])
    | none =>
      let r := findRuntime w rest
      (r.1, .readCandidate p :: r.2)

/-- `Self::create(path).map_err(|e| format!("{e:?}"))`, the tail of both
`auto_connect` branches. -/
def createAtPath (w : AutoWorld) (p : RPath) : Except String Monado × List ResolveEvent :=
  match (Monado.create (w.apiAt p)).1 with
  | .ok m => (.ok m, [.createAt p])
  | .error e => (.error e.debugStr, [.createAt p])

/-- The part of `auto_connect` after the descriptor search (`lib.rs` lines
201–211): unpack the found descriptor, require `MND_libmonado_path`, resolve
the library path and delegate to `create`. -/
def auto_connect_from (w : AutoWorld) :
    Option (RuntimeJSON × RPath) → Except String Monado × List ResolveEvent
  | none => (.error "Couldn't find the active runtime json", [])
  | some (runtime_json, runtime_json_path) =>
    match runtime_json.runtime.libmonado_path with
    | none => (.error "Couldn't find libmonado path in active runtime json", [])
    | some libmonado_path =>
      match resolve_runtime_library w.resolve libmonado_path runtime_json_path with
      | (.error e, t) => (.error e, t)
      | (.ok path, t) =>
        let c := createAtPath w path
        (c.1, t ++ c.2)

/-- `Monado::auto_connect` (`lib.rs` lines 175–212): the `LIBMONADO_PATH`
override short-circuits (use the file or fail); otherwise search the
descriptor chain and continue with the first parsing candidate. -/
def Monado.auto_connect (w : AutoWorld) : Except String Monado × List ResolveEvent :=
  match w.libmonadoPathVar with
  | some libmonado_path =>
    match w.metadata libmonado_path with
    | some .file => createAtPath w libmonado_path
    | _ => (.error "LIBMONADO_PATH does not point to a valid file", [])
  | none =>
    let fr := findRuntime w w.candidates
    let res := auto_connect_from w fr.1
    (res.1, fr.2 ++ res.2)

lemma createAtPath_snd (w : AutoWorld) (p : RPath) :
    (createAtPath w p).2 = [.createAt p] := by
  unfold createAtPath
  cases (Monado.create (w.apiAt p)).1 with
  | ok m => rfl
  | error e => rfl

/-- C3: when `LIBMONADO_PATH` is set, `auto_connect` either delegates to
`create` at exactly that path (when it names a regular file) with a trace that
consults no descriptor candidate, or fails immediately with the fixed error
string and an empty trace (when it does not), never reaching the descriptor
search. -/
theorem auto_connect_libmonado_path_override (w : AutoWorld) (p : RPath)
    (hvar : w.libmonadoPathVar = some p) :
    (w.metadata p = some .file →
      Monado.auto_connect w = createAtPath w p ∧
        ∀ q, ResolveEvent.readCandidate q ∉ (Monado.auto_connect w).2) ∧
    (w.metadata p ≠ some .file →
      Monado.auto_connect w =
        (.error "LIBMONADO_PATH does not point to a valid file", [])) := by
  constructor
  · intro hfile
    have he : Monado.auto_connect w = createAtPath w p := by
      simp only [Monado.auto_connect, hvar, hfile]
    refine ⟨he, fun q => ?_⟩
    rw [he, createAtPath_snd]
    simp
  · intro hnot
    rcases hm : w.metadata p with _ | k
    · simp only [Monado.auto_connect, hvar, hm]
    · cases k with
      | file => exact absurd hm hnot
      | dir => simp only [Monado.auto_connect, hvar, hm]
      | other => simp only [Monado.auto_connect, hvar, hm]

/-- Witness for C3: one world where the override names a regular file (the
delegation world) and one where the file is absent. -/
theorem auto_connect_libmonado_path_override_witness :
    Monado.auto_connect
        ⟨some ⟨true, ["opt", "libmonado.so"], true⟩,
          fun q => if q = ⟨true, ["opt", "libmonado.so"], true⟩ then some .file else none,
          none, false, [], fun _ => none, fun _ => none,
          ⟨fun _ => .error "x", fun _ => none⟩,
          fun _ => ⟨true, ⟨1, 3, 0⟩, .Success, 5⟩⟩ =
      (.ok ⟨5⟩, [.createAt ⟨true, ["opt", "libmonado.so"], true⟩]) ∧
    Monado.auto_connect
        ⟨some ⟨true, ["opt", "libmonado.so"], true⟩,
          fun _ => none,
          none, false, [], fun _ => none, fun _ => none,
          ⟨fun _ => .error "x", fun _ => none⟩,
          fun _ => ⟨true, ⟨1, 3, 0⟩, .Success, 5⟩⟩ =
      (.error "LIBMONADO_PATH does not point to a valid file", []) := by
  constructor
  · rw [((auto_connect_libmonado_path_override _
      ⟨true, ["opt", "libmonado.so"], true⟩ rfl).1 (by simp)).1]
    rfl
  · exact (auto_connect_libmonado_path_override _
      ⟨true, ["opt", "libmonado.so"], true⟩ rfl).2 (by simp)

lemma parseCandidate_congr (w w' : AutoWorld) (h1 : w'.readToString = w.readToString)
    (h2 : w'.parseRuntimeJSON = w.parseRuntimeJSON) (p : RPath) :
    w'.parseCandidate p = w.parseCandidate p := by
  simp [AutoWorld.parseCandidate, h1, h2]

lemma findRuntime_congr (w w' : AutoWorld) (h1 : w'.readToString = w.readToString)
    (h2 : w'.parseRuntimeJSON = w.parseRuntimeJSON) (l : List RPath) :
    findRuntime w' l = findRuntime w l := by
  induction l with
  | nil => rfl
  | cons p rest ih =>
    have hp' := parseCandidate_congr w w' h1 h2 p
    cases hp : w.parseCandidate p with
    | some j =>
      rw [hp] at hp'
      simp only [findRuntime, hp, hp']
    | none =>
      rw [hp] at hp'
      simp only [findRuntime, hp, hp', ih]

lemma auto_connect_from_congr (w w' : AutoWorld) (h1 : w'.resolve = w.resolve)
    (h2 : w'.apiAt = w.apiAt) (f : Option (RuntimeJSON × RPath)) :
    auto_connect_from w' f = auto_connect_from w f := by
  match f with
  | none => rfl
  | some (j, p) =>
    unfold auto_connect_from createAtPath
    rw [h1, h2]

lemma findRuntime_cons_none (w : AutoWorld) (p : RPath) (rest : List RPath)
    (hp : w.parseCandidate p = none) :
    findRuntime w (p :: rest) =
      ((findRuntime w rest).1, .readCandidate p :: (findRuntime w rest).2) := by
  simp only [findRuntime, hp]

lemma findRuntime_fst_none_iff (w : AutoWorld) (l : List RPath) :
    (findRuntime w l).1 = none ↔ ∀ p ∈ l, w.parseCandidate p = none := by
  induction l with
  | nil => simp [findRuntime]
  | cons p rest ih =>
    cases hp : w.parseCandidate p with
    | some j => simp [findRuntime, hp, List.forall_mem_cons]
    | none => simp [findRuntime, hp, List.forall_mem_cons, ih]

lemma resolve_error_forms (w : ResolveWorld) (lib rjp : RPath) (e : String)
    (h : (resolve_runtime_library w lib rjp).1 = .error e) :
    (∃ k, e = "Failed to canonicalize runtime json path: " ++ k) ∨
      e = "Library name contains invalid Unicode characters" := by
  unfold resolve_runtime_library at h
  match hc : w.canonicalize rjp with
  | .error k =>
    rw [hc] at h
    exact .inl ⟨k, (Except.error.injEq _ _).mp h.symm⟩
  | .ok c =>
    rw [hc] at h
    simp only at h
    split at h
    · exact absurd h (by simp)
    · split at h
      · exact .inr ((Except.error.injEq _ _).mp h).symm
      · split at h <;> exact absurd h (by simp)

lemma auto_connect_from_some_ne_not_found (w : AutoWorld) (j : RuntimeJSON) (p : RPath) :
    (auto_connect_from w (some (j, p))).1 ≠ .error "Couldn't find the active runtime json" := by
  intro he
  rcases hlp : j.runtime.libmonado_path with _ | lib
  · simp only [auto_connect_from, hlp] at he
    exact absurd ((Except.error.injEq _ _).mp he) (by decide)
  · rcases hr : resolve_runtime_library w.resolve lib p with ⟨r, t⟩
    rcases r with e | path
    · simp only [auto_connect_from, hlp, hr] at he
      have hee : e = "Couldn't find the active runtime json" := (Except.error.injEq _ _).mp he
      have hforms := resolve_error_forms w.resolve lib p e (by rw [hr])
      rcases hforms with ⟨k, hk⟩ | hk
      · rw [hk] at hee
        have h2 := congrArg String.length hee
        rw [String.length_append] at h2
        have e1 : ("Failed to canonicalize runtime json path: " : String).length = 42 := rfl
        have e2 : ("Couldn't find the active runtime json" : String).length = 37 := rfl
        omega
      · rw [hk] at hee
        exact absurd hee (by decide)
    · simp only [auto_connect_from, hlp, hr] at he
      rcases hcr : (Monado.create (w.apiAt path)).1 with ce | m
      · simp only [createAtPath, hcr] at he
        have hee := (Except.error.injEq _ _).mp he
        cases ce <;> exact absurd hee (by decide)
      · simp only [createAtPath, hcr] at he
        exact Except.noConfusion he

/-- C10: with `LIBMONADO_PATH` unset and `XR_RUNTIME_JSON` set to a candidate
that fails to read or parse, `auto_connect` returns exactly what it would
return with `XR_RUNTIME_JSON` unset (the failure is silently skipped), and it
reports the missing-runtime error precisely when no candidate in the whole
chain parses. -/
theorem auto_connect_xr_runtime_json_fallthrough (w : AutoWorld) (q : RPath)
    (hno : w.libmonadoPathVar = none)
    (hxr : w.xrRuntimeJsonVar = some q)
    (hbad : w.parseCandidate q = none) :
    (Monado.auto_connect w).1 =
      (Monado.auto_connect { w with xrRuntimeJsonVar := none }).1 ∧
    ((Monado.auto_connect w).1 = .error "Couldn't find the active runtime json" ↔
      ∀ p ∈ w.candidates, w.parseCandidate p = none) := by
  have hcand : w.candidates = q :: (if w.xdgOk then w.configFiles.reverse else []) := by
    simp [AutoWorld.candidates, hxr]
  have hcand' : (AutoWorld.candidates { w with xrRuntimeJsonVar := none }) =
      (if w.xdgOk then w.configFiles.reverse else []) := by
    simp [AutoWorld.candidates]
  have hfr : (findRuntime w w.candidates).1 =
      (findRuntime w (if w.xdgOk then w.configFiles.reverse else [])).1 := by
    rw [hcand, findRuntime_cons_none w q _ hbad]
  have hres : (Monado.auto_connect w).1 =
      (auto_connect_from w (findRuntime w w.candidates).1).1 := by
    simp only [Monado.auto_connect, hno]
  have hres' : (Monado.auto_connect { w with xrRuntimeJsonVar := none }).1 =
      (auto_connect_from { w with xrRuntimeJsonVar := none }
        (findRuntime { w with xrRuntimeJsonVar := none }
          (AutoWorld.candidates { w with xrRuntimeJsonVar := none })).1).1 := by
    simp only [Monado.auto_connect, hno]
  constructor
  · rw [hres, hres', hcand',
      findRuntime_congr w { w with xrRuntimeJsonVar := none } rfl rfl,
      auto_connect_from_congr w { w with xrRuntimeJsonVar := none } rfl rfl, hfr]
  · rw [hres]
    constructor
    · intro herr
      rcases hf : (findRuntime w w.candidates).1 with _ | ⟨j, p⟩
      · exact (findRuntime_fst_none_iff w w.candidates).mp hf
      · rw [hf] at herr
        exact absurd herr (auto_connect_from_some_ne_not_found w j p)
    · intro hall
      rw [(findRuntime_fst_none_iff w w.candidates).mpr hall]
      rfl

/-- Witness for C10: `XR_RUNTIME_JSON` names an unreadable file while a config
directory holds a parsing descriptor without `MND_libmonado_path`. -/
theorem auto_connect_xr_runtime_json_fallthrough_witness :
    ((Monado.auto_connect
        ⟨none, fun _ => none, some ⟨true, ["bad.json"], true⟩, true,
          [⟨true, ["etc", "active_runtime.json"], true⟩],
          fun p => if p = ⟨true, ["etc", "active_runtime.json"], true⟩ then some "j" else none,
          fun s => if s = "j" then some ⟨⟨⟨true, ["rt.so"], true⟩, none⟩⟩ else none,
          ⟨fun _ => .error "x", fun _ => none⟩,
          fun _ => ⟨true, ⟨1, 3, 0⟩, .Success, 5⟩⟩).1 =
      (Monado.auto_connect
        ⟨none, fun _ => none, none, true,
          [⟨true, ["etc", "active_runtime.json"], true⟩],
          fun p => if p = ⟨true, ["etc", "active_runtime.json"], true⟩ then some "j" else none,
          fun s => if s = "j" then some ⟨⟨⟨true, ["rt.so"], true⟩, none⟩⟩ else none,
          ⟨fun _ => .error "x", fun _ => none⟩,
          fun _ => ⟨true, ⟨1, 3, 0⟩, .Success, 5⟩⟩).1) ∧
    (Monado.auto_connect
        ⟨none, fun _ => none, some ⟨true, ["bad.json"], true⟩, true,
          [⟨true, ["etc", "active_runtime.json"], true⟩],
          fun p => if p = ⟨true, ["etc", "active_runtime.json"], true⟩ then some "j" else none,
          fun s => if s = "j" then some ⟨⟨⟨true, ["rt.so"], true⟩, none⟩⟩ else none,
          ⟨fun _ => .error "x", fun _ => none⟩,
          fun _ => ⟨true, ⟨1, 3, 0⟩, .Success, 5⟩⟩).1 ≠
      .error "Couldn't find the active runtime json" := by
  have h := auto_connect_xr_runtime_json_fallthrough
    ⟨none, fun _ => none, some ⟨true, ["bad.json"], true⟩, true,
      [⟨true, ["etc", "active_runtime.json"], true⟩],
      fun p => if p = ⟨true, ["etc", "active_runtime.json"], true⟩ then some "j" else none,
      fun s => if s = "j" then some ⟨⟨⟨true, ["rt.so"], true⟩, none⟩⟩ else none,
      ⟨fun _ => .error "x", fun _ => none⟩,
      fun _ => ⟨true, ⟨1, 3, 0⟩, .Success, 5⟩⟩
    ⟨true, ["bad.json"], true⟩ rfl rfl (by simp [AutoWorld.parseCandidate])
  refine ⟨h.1, fun he => ?_⟩
  have := h.2.mp he ⟨true, ["etc", "active_runtime.json"], true⟩
    (by simp [AutoWorld.candidates])
  simp [AutoWorld.parseCandidate] at this

/-! ## UTF-8 decoding at the foreign boundary

Foreign C strings are byte sequences; the binding decodes them either
strictly (`CStr::to_str`, mapping failure to `ErrorInvalidValue`) or lossily
(`CStr::to_string_lossy`).  Decoded strings are represented by their UTF-8
bytes so that alteration of the bytes is observable. -/

/-- A UTF-8 continuation byte, 0x80–0xBF. -/
def isCont (b : Nat) : Bool := 0x80 ≤ b && b ≤ 0xBF

/-- The valid second byte for a given multi-byte lead: 0xE0, 0xED, 0xF0 and
0xF4 restrict it to exclude overlong encodings, surrogates and values above
U+10FFFF (per `core::str::validations`). -/
def validSecond (b0 b1 : Nat) : Bool :=
  if b0 == 0xE0 then 0xA0 ≤ b1 && b1 ≤ 0xBF
  else if b0 == 0xED then 0x80 ≤ b1 && b1 ≤ 0x9F
  else if b0 == 0xF0 then 0x90 ≤ b1 && b1 ≤ 0xBF
  else if b0 == 0xF4 then 0x80 ≤ b1 && b1 ≤ 0x8F
  else isCont b1

/-- `str::from_utf8(bytes).is_ok()`: whole-sequence UTF-8 validity. -/
def utf8Valid : List Nat → Bool
  | [] => true
  | b0 :: rest =>
    if b0 < 0x80 then utf8Valid rest
    else if 0xC2 ≤ b0 && b0 ≤ 0xDF then
      match rest with
      | b1 :: rest1 => isCont b1 && utf8Valid rest1
      | [] => false
    else if 0xE0 ≤ b0 && b0 ≤ 0xEF then
      match rest with
      | b1 :: b2 :: rest2 => validSecond b0 b1 && isCont b2 && utf8Valid rest2
      | _ => false
    else if 0xF0 ≤ b0 && b0 ≤ 0xF4 then
      match rest with
      | b1 :: b2 :: b3 :: rest3 =>
        validSecond b0 b1 && isCont b2 && isCont b3 && utf8Valid rest3
      | _ => false
    else false

/-- The UTF-8 bytes of U+FFFD, the replacement character. -/
def replacementChar : List Nat := [0xEF, 0xBF, 0xBD]

/-- Fuel-indexed worker for the lossy decode.  Every step consumes at least
one byte, so fuel equal to the list length always suffices and the
fuel-exhausted case is unreachable from `utf8Lossy`. -/
def utf8LossyGo : Nat → List Nat → List Nat
  | _, [] => []
  | 0, _ :: _ => []
  | fuel + 1, b0 :: rest =>
    if b0 < 0x80 then b0 :: utf8LossyGo fuel rest
    else if 0xC2 ≤ b0 && b0 ≤ 0xDF then
      match rest with
      | [] => replacementChar
      | b1 :: rest1 =>
        if isCont b1 then b0 :: b1 :: utf8LossyGo fuel rest1
        else replacementChar ++ utf8LossyGo fuel (b1 :: rest1)
    else if 0xE0 ≤ b0 && b0 ≤ 0xEF then
      match rest with
      | [] => replacementChar
      | b1 :: rest1 =>
        if validSecond b0 b1 = false then
          replacementChar ++ utf8LossyGo fuel (b1 :: rest1)
        else
          match rest1 with
          | [] => replacementChar
          | b2 :: rest2 =>
            if isCont b2 then b0 :: b1 :: b2 :: utf8LossyGo fuel rest2
            else replacementChar ++ utf8LossyGo fuel (b2 :: rest2)
    else if 0xF0 ≤ b0 && b0 ≤ 0xF4 then
      match rest with
      | [] => replacementChar
      | b1 :: rest1 =>
        if validSecond b0 b1 = false then
          replacementChar ++ utf8LossyGo fuel (b1 :: rest1)
        else
          match rest1 with
          | [] => replacementChar
          | b2 :: rest2 =>
            if isCont b2 = false then
              replacementChar ++ utf8LossyGo fuel (b2 :: rest2)
            else
              match rest2 with
              | [] => replacementChar
              | b3 :: rest3 =>
                if isCont b3 then b0 :: b1 :: b2 :: b3 :: utf8LossyGo fuel rest3
                else replacementChar ++ utf8LossyGo fuel (b3 :: rest3)
    else replacementChar ++ utf8LossyGo fuel rest

/-- `String::from_utf8_lossy` with substitution of maximal subparts: each
invalid sequence contributes one U+FFFD per error, where a multi-byte
sequence that goes wrong is skipped up to (excluding) its first offending
byte.  The result is the byte sequence of the produced string. -/
def utf8Lossy (l : List Nat) : List Nat := utf8LossyGo l.length l

/-! ## String-returning operations (C6) -/

/-- Oracle for one foreign call that yields a C string: the returned status
and the bytes of the string the out-pointer designates (without the NUL). -/
structure StrCallWorld where
  status : MndResult
  bytes : List Nat
deriving DecidableEq, Repr

/-- `CStr::to_str().map_err(|_| MndResult::ErrorInvalidValue)` followed by
`to_owned`: the strict decode used for client, device and tracking-origin
names.  The decoded string is its UTF-8 byte sequence. -/
def decodeCStr (bytes : List Nat) : Except MndResult (List Nat) :=
  if utf8Valid bytes then .ok bytes else .error .ErrorInvalidValue

/-- `ClientLogic::name` (`lib.rs` lines 429–443): status check, then strict
decode of the foreign string. -/
def ClientLogic.name (w : StrCallWorld) : Except MndResult (List Nat) :=
  match w.status.toResult with
  | .error e => .error e
  | .ok _ => decodeCStr w.bytes

/-- The per-device fetch-and-decode step of `devices_data` (`lib.rs` lines
351–371), also the device-name decode of `device_from_role_str`. -/
def deviceInfoName (w : StrCallWorld) : Except MndResult (List Nat) :=
  match w.status.toResult with
  | .error e => .error e
  | .ok _ => decodeCStr w.bytes

/-- The per-origin fetch-and-decode step of `tracking_origins` (`space.rs`
lines 114–132). -/
def trackingOriginName (w : StrCallWorld) : Except MndResult (List Nat) :=
  match w.status.toResult with
  | .error e => .error e
  | .ok _ => decodeCStr w.bytes

/-- `DeviceLogic::get_info_string` (`lib.rs` lines 614–626): status check,
then `CStr::to_string_lossy().to_string()` — the lossy decode. -/
def DeviceLogic.get_info_string (w : StrCallWorld) : Except MndResult (List Nat) :=
  match w.status.toResult with
  | .error e => .error e
  | .ok _ => .ok (utf8Lossy w.bytes)

/-- C6 counterexample: on the invalid byte sequence `[0xFF]`,
`DeviceLogic::get_info_string` does not return `Err(ErrorInvalidValue)`; it
returns `Ok` with the bytes silently replaced by U+FFFD. -/
theorem get_info_string_lossy_counterexample :
    utf8Valid [0xFF] = false ∧
      DeviceLogic.get_info_string ⟨.Success, [0xFF]⟩ ≠ .error .ErrorInvalidValue ∧
      DeviceLogic.get_info_string ⟨.Success, [0xFF]⟩ = .ok [0xEF, 0xBF, 0xBD] ∧
      ([0xEF, 0xBF, 0xBD] : List Nat) ≠ [0xFF] := by decide

/-- C6 amended: the client-name, device-name and tracking-origin-name fetches
return `Err(ErrorInvalidValue)` on invalid encoding and the unaltered bytes on
valid encoding, but `DeviceLogic::get_info_string` never reports an encoding
error: it returns the lossy conversion, replacing invalid sequences with
U+FFFD. -/
theorem foreign_string_decode_behavior (w : StrCallWorld)
    (hok : w.status = .Success) :
    (utf8Valid w.bytes = false →
      ClientLogic.name w = .error .ErrorInvalidValue ∧
        deviceInfoName w = .error .ErrorInvalidValue ∧
        trackingOriginName w = .error .ErrorInvalidValue) ∧
    (utf8Valid w.bytes = true →
      ClientLogic.name w = .ok w.bytes ∧
        deviceInfoName w = .ok w.bytes ∧
        trackingOriginName w = .ok w.bytes) ∧
    DeviceLogic.get_info_string w = .ok (utf8Lossy w.bytes) := by
  obtain ⟨s, bytes⟩ := w
  cases hok
  refine ⟨fun hv => ?_, fun hv => ?_, ?_⟩
  · simp [ClientLogic.name, deviceInfoName, trackingOriginName,
      MndResult.toResult, decodeCStr, hv]
  · simp [ClientLogic.name, deviceInfoName, trackingOriginName,
      MndResult.toResult, decodeCStr, hv]
  · simp [DeviceLogic.get_info_string, MndResult.toResult]

/-- Witness for C6 (amended): invalid bytes `[0xFF]` give the invalid-value
error on the strict path; the valid byte `[0x61]` round-trips unaltered. -/
theorem foreign_string_decode_behavior_witness :
    ClientLogic.name ⟨.Success, [0xFF]⟩ = .error .ErrorInvalidValue ∧
      ClientLogic.name ⟨.Success, [0x61]⟩ = .ok [0x61] :=
  ⟨((foreign_string_decode_behavior ⟨.Success, [0xFF]⟩ rfl).1 (by decide)).1,
    (((foreign_string_decode_behavior ⟨.Success, [0x61]⟩ rfl).2).1 (by decide)).1⟩

/-! ## Client state bitset (C7, C9) -/

/-- The union of the six declared `ClientState` flags (`sys.rs` lines 31–41):
1, 2, 4, 8, 16, 32. -/
def ClientState.mask : Nat := 1 ||| 2 ||| 4 ||| 8 ||| 16 ||| 32

/-- `ClientState::ClientIoActive` (bit value 32). -/
def ClientState.ClientIoActive : Nat := 32

/-- `FlagSet::new_unchecked`: wraps a raw bit word with no validation against
the flag mask. -/
def FlagSet.new_unchecked (bits : Nat) : Nat := bits

/-- `FlagSet::contains` specialised to a single flag: all of the flag's bits
are present in the set. -/
def FlagSet.containsFlag (bits flag : Nat) : Bool := bits &&& flag == flag

/-- Oracle for `mnd_root_get_client_state`: status and the raw u32 state word
the foreign side writes. -/
structure StateWorld where
  status : MndResult
  bits : Nat
deriving DecidableEq, Repr

/-- `ClientLogic::state` (`lib.rs` lines 444–454): status check, then
`FlagSet::new_unchecked` on the raw word. -/
def ClientLogic.state (w : StateWorld) : Except MndResult Nat :=
  match w.status.toResult with
  | .error e => .error e
  | .ok _ => .ok (FlagSet.new_unchecked w.bits)

/-- C7 counterexample: when the foreign side reports the raw word 64 (a bit
outside the six-flag mask 63), `state()` returns a flag set containing that
out-of-mask bit — no validation happens at the boundary. -/
theorem state_unchecked_counterexample :
    ClientLogic.state ⟨.Success, 64⟩ = .ok 64 ∧
      (64 : Nat) &&& ClientState.mask ≠ 64 := by decide

/-- C7 amended: `state()` performs no mask validation; on a successful foreign
call it returns exactly the raw u32 state word wrapped via
`FlagSet::new_unchecked`, out-of-mask bits included. -/
theorem state_returns_raw_bits (w : StateWorld) (hok : w.status = .Success) :
    ClientLogic.state w = .ok w.bits := by
  obtain ⟨s, bits⟩ := w
  cases hok
  rfl

/-- Witness for C7 (amended) at the out-of-mask raw word 64. -/
theorem state_returns_raw_bits_witness :
    ClientLogic.state ⟨.Success, 64⟩ = .ok 64 :=
  state_returns_raw_bits ⟨.Success, 64⟩ rfl

/-! ## Role lookup (C8) -/

/-- The Rust `as u32` cast of an `i32` value: two's-complement wrap. -/
def i32AsU32 (n : Int) : Nat := (n % 4294967296).toNat

/-- Oracle for `mnd_root_get_device_from_role`: status and the final value of
the `i32` out-index slot (the binding initialises it to -1). -/
structure RoleWorld where
  status : MndResult
  outIndex : Int
deriving DecidableEq, Repr

/-- `DeviceData` (`lib.rs` lines 163–169) with the name as UTF-8 bytes. -/
structure DeviceData where
  index : Nat
  name_id : Nat
  name : List Nat
deriving DecidableEq, Repr

/-- `Monado::device_index_from_role_str` (`lib.rs` lines 291–304): status
check, `-1` sentinel check, then `index as u32`. -/
def Monado.device_index_from_role_str (w : RoleWorld) : Except MndResult Nat :=
  match w.status.toResult with
  | .error e => .error e
  | .ok _ =>
    if w.outIndex == -1 then .error .ErrorInvalidValue
    else .ok (i32AsU32 w.outIndex)

/-- Oracle for `mnd_root_get_device_info`. -/
structure DeviceInfoWorld where
  status : MndResult
  nameId : Nat
  nameBytes : List Nat
deriving DecidableEq, Repr

/-- `Monado::device_from_role_str` (`lib.rs` lines 311–333): resolve the
index, then fetch and strictly decode the device info. -/
def Monado.device_from_role_str (wr : RoleWorld) (wd : DeviceInfoWorld) :
    Except MndResult DeviceData :=
  match Monado.device_index_from_role_str wr with
  | .error e => .error e
  | .ok index =>
    match wd.status.toResult with
    | .error e => .error e
    | .ok _ =>
      match decodeCStr wd.nameBytes with
      | .error e => .error e
      | .ok name => .ok ⟨index, wd.nameId, name⟩

/-- C8: when the foreign role lookup succeeds, the sentinel out-index -1
yields `Err(ErrorInvalidValue)` from `device_index_from_role_str` and hence
from `device_from_role_str`; any non-negative out-index (within i32 range) is
returned as that index as a u32. -/
theorem device_from_role_sentinel (wr : RoleWorld) (wd : DeviceInfoWorld)
    (hok : wr.status = .Success) (hrange : wr.outIndex < 2147483648) :
    (wr.outIndex = -1 →
      Monado.device_index_from_role_str wr = .error .ErrorInvalidValue ∧
        Monado.device_from_role_str wr wd = .error .ErrorInvalidValue) ∧
    (0 ≤ wr.outIndex →
      Monado.device_index_from_role_str wr = .ok wr.outIndex.toNat) := by
  obtain ⟨s, n⟩ := wr
  cases hok
  simp only at hrange
  constructor
  · intro hn
    subst hn
    constructor
    · rfl
    · rfl
  · intro hn
    simp only at hn
    have hne : (n == -1) = false := by
      simp only [beq_eq_false_iff_ne, ne_eq]
      omega
    have hmod : n % 4294967296 = n := Int.emod_eq_of_lt hn (by omega)
    simp [Monado.device_index_from_role_str, MndResult.toResult, hne,
      i32AsU32, hmod]

/-- Witness for C8: sentinel -1 gives the invalid-value error on both paths;
out-index 3 is returned as 3. -/
theorem device_from_role_sentinel_witness :
    Monado.device_index_from_role_str ⟨.Success, -1⟩ = .error .ErrorInvalidValue ∧
      Monado.device_from_role_str ⟨.Success, -1⟩ ⟨.Success, 0, []⟩ =
        .error .ErrorInvalidValue ∧
      Monado.device_index_from_role_str ⟨.Success, 3⟩ = .ok 3 := by
  refine ⟨?_, ?_, ?_⟩
  · exact ((device_from_role_sentinel ⟨.Success, -1⟩ ⟨.Success, 0, []⟩ rfl
      (by decide)).1 rfl).1
  · exact ((device_from_role_sentinel ⟨.Success, -1⟩ ⟨.Success, 0, []⟩ rfl
      (by decide)).1 rfl).2
  · exact (device_from_role_sentinel ⟨.Success, 3⟩ ⟨.Success, 0, []⟩ rfl
      (by decide)).2 (by decide)

/-! ## `set_io_active` (C9) -/

/-- Oracle for one `set_io_active` call: the state read (status and raw bits)
and the status a toggle call would return. -/
structure IoToggleWorld where
  stateStatus : MndResult
  stateBits : Nat
  toggleStatus : MndResult
deriving DecidableEq, Repr

/-- `ClientLogic::set_io_active` (`lib.rs` lines 473–485): read the state;
toggle exactly when the IO-active bit disagrees with the requested value. -/
def ClientLogic.set_io_active (w : IoToggleWorld) (active : Bool) :
    Except MndResult Unit × List FfiCall :=
  match ClientLogic.state ⟨w.stateStatus, w.stateBits⟩ with
  | .error e => (.error e, [.getClientState])
  | .ok st =>
    if FlagSet.containsFlag st ClientState.ClientIoActive != active then
      match w.toggleStatus.toResult with
      | .error e => (.error e, [.getClientState, .toggleClientIoActive])
      | .ok _ => (.ok (), [.getClientState, .toggleClientIoActive])
    else (.ok (), [.getClientState])

/-- C9: with a successful state read, `set_io_active` is a no-op returning
`Ok(())` when the IO-active bit already equals the request (trace: one state
read, no toggle), and issues exactly one toggle call when it differs. -/
theorem set_io_active_idempotent (w : IoToggleWorld) (active : Bool)
    (hok : w.stateStatus = .Success) :
    (FlagSet.containsFlag w.stateBits ClientState.ClientIoActive = active →
      ClientLogic.set_io_active w active = (.ok (), [.getClientState])) ∧
    (FlagSet.containsFlag w.stateBits ClientState.ClientIoActive ≠ active →
      (ClientLogic.set_io_active w active).2 =
        [.getClientState, .toggleClientIoActive]) := by
  obtain ⟨s, bits, ts⟩ := w
  cases hok
  constructor
  · intro hb
    simp only at hb
    simp [ClientLogic.set_io_active, ClientLogic.state, MndResult.toResult,
      FlagSet.new_unchecked, hb]
  · intro hb
    simp only at hb
    have hb' : (FlagSet.containsFlag bits ClientState.ClientIoActive != active) = true := by
      cases hcb : FlagSet.containsFlag bits ClientState.ClientIoActive <;>
        cases active <;> simp_all
    simp only [ClientLogic.set_io_active, ClientLogic.state, MndResult.toResult,
      FlagSet.new_unchecked, hb', if_true]
    cases ts <;> rfl

/-- Witness for C9: bits 32 with request `true` is a no-op; bits 0 with
request `true` issues exactly the toggle call. -/
theorem set_io_active_idempotent_witness :
    ClientLogic.set_io_active ⟨.Success, 32, .Success⟩ true =
        (.ok (), [.getClientState]) ∧
      (ClientLogic.set_io_active ⟨.Success, 0, .Success⟩ true).2 =
        [.getClientState, .toggleClientIoActive] :=
  ⟨(set_io_active_idempotent ⟨.Success, 32, .Success⟩ true rfl).1 (by decide),
    (set_io_active_idempotent ⟨.Success, 0, .Success⟩ true rfl).2 (by decide)⟩

end Libmonado
